import Mathlib

/-!
Verification of the wordlist-generator core (`word-gen.py`): a shallow
embedding of its enumeration, parsing, composition, estimation and sink
functions, followed by theorems settling the specified properties.

Modelling conventions:
* Python strings are Lean `String` / `List Char`; the substitution table maps
  a character to its candidate characters (all table candidates in the source
  are single characters).
* Lazy generators become Lean `List`s (the streams are finite for every
  configuration the theorems quantify over).
* Fallible code (year-range parsing, and everything downstream of it) returns
  `Option`; `none` is the `ValueError` ("FormatError") path.
* Python `int()` is modelled for ASCII inputs: optional surrounding
  whitespace, an optional sign, then digits with single underscores allowed
  between digit groups.
-/

namespace WordGen

/-- The static substitution table `DEFAULT_SUBS` from the source, verbatim. -/
def DEFAULT_SUBS : List (Char × List Char) :=
  [ ('a', ['a', 'A', '@', '4'])
  , ('b', ['b', 'B', '8'])
  , ('c', ['c', 'C', '('])
  , ('e', ['e', 'E', '3'])
  , ('g', ['g', 'G', '9', '6'])
  , ('i', ['i', 'I', '1', '!'])
  , ('l', ['l', 'L', '1', '|'])
  , ('o', ['o', 'O', '0'])
  , ('s', ['s', 'S', '$', '5'])
  , ('t', ['t', 'T', '7', '+'])
  , ('z', ['z', 'Z', '2']) ]

/-- Dictionary lookup: `subs[key] if key in subs` (first matching key). -/
def lookupSubs (subs : List (Char × List Char)) (c : Char) : Option (List Char) :=
  (subs.find? (fun p => p.1 == c)).map Prod.snd

/-- The dedup loop of `options_for_char`: keep the first occurrence of each
character, preserving order. `seen` is the set of already-emitted characters. -/
def dedupAux (seen : List Char) : List Char → List Char
  | [] => []
  | o :: rest => if o ∈ seen then dedupAux seen rest else o :: dedupAux (o :: seen) rest

/-- `# Deduplicate while preserving order` from `options_for_char`. -/
def dedupFirst (l : List Char) : List Char := dedupAux [] l

/-- `options_for_char(ch, subs)`: table entry for an alphabetic character's
lowercase form if present, else `[lower, upper]`; a non-letter passes through
as a singleton. The result is deduplicated preserving first-seen order. -/
def options_for_char (ch : Char) (subs : List (Char × List Char)) : List Char :=
  let opts :=
    if ch.isAlpha then
      match lookupSubs subs ch.toLower with
      | some l => l
      | none => [ch.toLower, ch.toUpper]
    else [ch]
  dedupFirst opts

/-- `itertools.product` over a list of candidate lists: nested-loop order,
first position varying slowest, last position varying fastest. -/
def listProd : List (List Char) → List (List Char)
  | [] => [[]]
  | os :: rest => os.flatMap (fun o => (listProd rest).map (fun c => o :: c))

/-- `iter_base_variants(s, subs)`: the Cartesian product of the per-character
option lists, each combination joined back into a string. -/
def iter_base_variants (s : String) (subs : List (Char × List Char)) : List String :=
  (listProd (s.data.map (fun ch => options_for_char ch subs))).map String.mk

/-- The candidate string `"0123456789"` of `iter_digit_suffixes`. -/
def DIGITS : List Char := ['0', '1', '2', '3', '4', '5', '6', '7', '8', '9']

/-- `iter_digit_suffixes()`: all digit strings of length 1 to 4, length
ascending, each fixed-length block in `itertools.product` order. -/
def iter_digit_suffixes : List String :=
  (List.range 4).flatMap (fun i => (listProd (List.replicate (i + 1) DIGITS)).map String.mk)

/-- Python `str.strip()` on a character list: drop whitespace at both ends. -/
def stripChars (l : List Char) : List Char :=
  ((l.dropWhile Char.isWhitespace).reverse.dropWhile Char.isWhitespace).reverse

/-- Digit-run parser for `int()`: accumulate ASCII digits onto `acc`,
allowing a single `_` between digit groups (as Python's `int` does). -/
def digitsCore : List Char → Nat → Option Nat
  | [], acc => some acc
  | '_' :: c :: cs, acc =>
      if c.isDigit then digitsCore cs (acc * 10 + (c.toNat - 48)) else none
  | ['_'], _ => none
  | c :: cs, acc =>
      if c.isDigit then digitsCore cs (acc * 10 + (c.toNat - 48)) else none

/-- The digits of an `int()` literal: at least one digit, then `digitsCore`. -/
def parseDigits : List Char → Option Nat
  | [] => none
  | c :: cs => if c.isDigit then digitsCore cs (c.toNat - 48) else none

/-- Python `int(s)` on an already-stripped ASCII string: optional sign then
digits (with single interior underscores). `none` is a `ValueError`. -/
def pyInt (l : List Char) : Option Int :=
  match l with
  | '-' :: rest => (parseDigits rest).map (fun n => -(n : Int))
  | '+' :: rest => (parseDigits rest).map (fun n => (n : Int))
  | rest => (parseDigits rest).map (fun n => (n : Int))

/-- `spec.split("-", 1)` followed by the two-element unpack: split at the
first `'-'`; `none` when there is no `'-'` (the unpack `ValueError`). -/
def splitOnce : List Char → Option (List Char × List Char)
  | [] => none
  | c :: rest =>
      if c = '-' then some ([], rest)
      else (splitOnce rest).map (fun p => (c :: p.1, p.2))

/-- `parse_year_range(spec)`: split on the first `'-'`, strip and
integer-parse both sides, and swap to ascending when `start > end`.
`none` models the raised `ValueError` (the FormatError); any failing step
short-circuits, as the `try` block does. -/
def parse_year_range (spec : String) : Option (Int × Int) :=
  (splitOnce spec.data).bind (fun p =>
    (pyInt (stripChars p.1)).bind (fun s =>
      (pyInt (stripChars p.2)).map (fun e =>
        if s > e then (e, s) else (s, e))))

/-- `range(start, end + 1)` over integers. -/
def intRange (s e : Int) : List Int :=
  (List.range (e + 1 - s).toNat).map (fun i : Nat => s + (i : Int))

/-- The ASCII digit character for a value below ten. -/
def digitChar (d : Nat) : Char := Char.ofNat (48 + d)

/-- Decimal digits of `n`, fuel-indexed so that recursion is structural. -/
def decCharsAux : Nat → Nat → List Char
  | 0, _ => []
  | fuel + 1, n =>
      if n < 10 then [digitChar n]
      else decCharsAux fuel (n / 10) ++ [digitChar (n % 10)]

/-- The canonical decimal string of a natural number. -/
def natDecimal (n : Nat) : String := String.mk (decCharsAux (n + 1) n)

/-- Python `str(y)` for an integer: sign then decimal digits. -/
def pyStr (y : Int) : String :=
  if y < 0 then "-" ++ natDecimal (-y).toNat else natDecimal y.toNat

/-- Python `f"{m:02d}"` for `0 ≤ m < 100`: zero-padded to width 2. -/
def pad2 (m : Nat) : String :=
  if m < 10 then String.mk ['0', digitChar m]
  else String.mk [digitChar (m / 10), digitChar (m % 10)]

/-- The items emitted for one year `y` by `iter_year_suffixes`: `str(y)`,
then `f"{y % 100:02d}"` when 2-digit mode is on (Python `%` is `Int.emod`). -/
def year_items (year2 : Bool) (y : Int) : List String :=
  pyStr y :: (if year2 then [pad2 (y.emod 100).toNat] else [])

/-- The year-suffix sequence for an already-parsed ascending range. -/
def year_list (s e : Int) (year2 : Bool) : List String :=
  (intRange s e).flatMap (year_items year2)

/-- `iter_year_suffixes(years_spec, year2)`: empty for the empty spec, else
parse the range and emit per-year items; `none` when parsing raises. -/
def iter_year_suffixes (years_spec : String) (year2 : Bool) : Option (List String) :=
  if years_spec = "" then some []
  else (parse_year_range years_spec).map (fun p => year_list p.1 p.2 year2)

/-- `iter_variants(s, subs, append_digits, years_spec, year2)`: per base
variant, either the bare base (no suffixes requested), or the year-suffixed
items followed by the digit-suffixed items. `none` when year parsing raises. -/
def iter_variants (s : String) (subs : List (Char × List Char))
    (append_digits : Bool) (years_spec : String) (year2 : Bool) :
    Option (List String) :=
  (iter_year_suffixes years_spec year2).map (fun ys =>
    (iter_base_variants s subs).flatMap (fun base =>
      if !append_digits && years_spec = "" then [base]
      else
        (if years_spec ≠ "" then ys.map (fun suf => base ++ suf) else []) ++
        (if append_digits then iter_digit_suffixes.map (fun suf => base ++ suf) else [])))

/-- The `base_total` loop of `main`: the product of the per-character
option-list lengths under `DEFAULT_SUBS`. -/
def base_total (text : String) : Nat :=
  (text.data.map (fun ch => (options_for_char ch DEFAULT_SUBS).length)).foldl
    (fun acc n => acc * n) 1

/-- The `year_total` computation of `main`: `1` when no years are requested,
else `(y1 - y0 + 1) * (2 if year2 else 1)` for the parsed range; `none` when
parsing raises. -/
def year_total_calc (years : String) (year2 : Bool) : Option Nat :=
  if years = "" then some 1
  else (parse_year_range years).map
    (fun p => (p.2 - p.1 + 1).toNat * (if year2 then 2 else 1))

/-- The `digit_total` computation of `main`. -/
def digit_total (append_digits : Bool) : Nat :=
  if append_digits then 11110 else 1

/-- The Total Estimator of `main` before the limit clamp:
`base_total * year_total * digit_total`. -/
def computed_total (text : String) (append_digits : Bool)
    (years : String) (year2 : Bool) : Option Nat :=
  (year_total_calc years year2).map
    (fun yt => base_total text * yt * digit_total append_digits)

/-- `if args.limit: total = min(total, args.limit)` (limit `0` means absent). -/
def clamp_total (total : Nat) (limit : Nat) : Nat :=
  if limit ≠ 0 then min total limit else total

/-- The emission loop of `main`: write the item, count it, and break once a
nonzero limit is reached. `emitted` is the count before this iteration. -/
def sink_loop (limit : Nat) : List String → Nat → List String
  | [], _ => []
  | v :: rest, emitted =>
      v :: (if limit ≠ 0 && emitted + 1 ≥ limit then []
            else sink_loop limit rest (emitted + 1))

/-- The Sink Writer on a composed stream: the emission loop from count 0. -/
def sink_emit (stream : List String) (limit : Nat) : List String :=
  sink_loop limit stream 0

/-- Items pulled from the underlying stream by the emission loop: the `for`
loop consumes exactly the items it writes before `break`ing. -/
def sink_pulled (stream : List String) (limit : Nat) : Nat :=
  (sink_emit stream limit).length

/-- Observable outcome of a `main` run: a clean exit with the lines printed
to stdout, or an uncaught exception escaping `main` with its message. -/
inductive MainOutcome where
  | ok (exitCode : Nat) (stdout : List String)
  | uncaughtError (msg : String)
deriving DecidableEq

/-- The message of the `ValueError` raised by `parse_year_range`. -/
def YEARS_ERROR_MSG : String :=
  "Invalid --years format. Use START-END (e.g. 1970-2026)."

/-- `main` after argument parsing, for a provided base string: compute the
total (year parsing may raise — uncaught in the source), print it in
count-only mode, else emit through the sink loop. Stdout lines are the data
stream (stdout sink) plus the final `count` output. -/
def main_run (text : String) (append_digits : Bool) (years : String)
    (year2 : Bool) (limit : Nat) (count_only : Bool) : MainOutcome :=
  (computed_total text append_digits years year2).elim
    (.uncaughtError YEARS_ERROR_MSG)
    (fun total0 =>
      let total := clamp_total total0 limit
      if count_only then .ok 0 [natDecimal total]
      else
        (iter_variants text DEFAULT_SUBS append_digits years year2).elim
          (.uncaughtError YEARS_ERROR_MSG)
          (fun stream => .ok 0 (sink_emit stream limit)))

/-- Modelled from the spec (§4.2, "nested-loop order"): the combination at
index `k`, selecting for each position the mixed-radix digit of `k`, the last
position varying fastest. Compared against `listProd` for claim C4. -/
def odometerAt : List (List Char) → Nat → List Char
  | [], _ => []
  | os :: rest, k =>
      let m := (rest.map List.length).prod
      os.getD (k / m) ' ' :: odometerAt rest (k % m)

/-- Modelled from the spec (§4.3, "counting with leading zeros"): the decimal
digits of `n` zero-padded to width `w`. Compared against the digit-suffix
blocks for claim C7. -/
def padDecChars : Nat → Nat → List Char
  | 0, _ => []
  | w + 1, n => digitChar (n / 10 ^ w) :: padDecChars w (n % 10 ^ w)

/-- The width-`w` zero-padded decimal string of `n`. -/
def padDec (w n : Nat) : String := String.mk (padDecChars w n)

/-- Modelled from the spec (§4.4): the year specification splits on the
separator into two integer-parsable parts (each possibly carrying
surrounding whitespace). The claimed success condition of parsing. -/
def splits_two_int_parsable (spec : String) : Prop :=
  ∃ p : List Char × List Char, splitOnce spec.data = some p ∧
    (pyInt (stripChars p.1)).isSome ∧ (pyInt (stripChars p.2)).isSome

/-! ### Dedup lemmas -/

lemma dedupAux_not_mem_seen :
    ∀ (l seen : List Char) (x : Char), x ∈ dedupAux seen l → x ∉ seen := by
  intro l
  induction l with
  | nil => intro seen x hx; simp [dedupAux] at hx
  | cons o rest ih =>
    intro seen x hx
    rw [dedupAux] at hx
    split at hx
    · exact ih seen x hx
    · rcases List.mem_cons.1 hx with h | h
      · subst h; assumption
      · intro hxs
        exact ih (o :: seen) x h (List.mem_cons_of_mem _ hxs)

lemma dedupAux_nodup : ∀ (l seen : List Char), (dedupAux seen l).Nodup := by
  intro l
  induction l with
  | nil => intro seen; simp [dedupAux]
  | cons o rest ih =>
    intro seen
    rw [dedupAux]
    split
    · exact ih seen
    · refine List.nodup_cons.2 ⟨fun hmem => ?_, ih (o :: seen)⟩
      exact dedupAux_not_mem_seen rest (o :: seen) o hmem (List.mem_cons_self o seen)

lemma dedupFirst_nodup (l : List Char) : (dedupFirst l).Nodup :=
  dedupAux_nodup l []

lemma dedupFirst_ne_nil {l : List Char} (h : l ≠ []) : dedupFirst l ≠ [] := by
  cases l with
  | nil => exact absurd rfl h
  | cons x xs => simp [dedupFirst, dedupAux]

lemma options_for_char_nodup (ch : Char) (subs : List (Char × List Char)) :
    (options_for_char ch subs).Nodup := by
  unfold options_for_char
  exact dedupFirst_nodup _

/-! ### Cartesian-product lemmas: `listProd` as an odometer over `range` -/

lemma flatMap_eq_range {α β : Type} (l : List α) (f : α → List β) (d : α) :
    l.flatMap f = (List.range l.length).flatMap (fun q => f (l.getD q d)) := by
  induction l with
  | nil => simp
  | cons x xs ih =>
    rw [List.flatMap_cons, List.length_cons, List.range_succ_eq_map,
      List.flatMap_cons, List.flatMap_map]
    simp only [List.getD_cons_zero, List.getD_cons_succ]
    rw [ih]

lemma range_mul_flatMap (n m : Nat) :
    List.range (n * m) =
      (List.range n).flatMap (fun q => (List.range m).map (fun r => q * m + r)) := by
  induction n with
  | zero => simp
  | succ n ih =>
    rw [Nat.succ_mul, List.range_add, ih, List.range_succ, List.flatMap_append,
      List.flatMap_cons, List.flatMap_nil, List.append_nil]

lemma odometerAt_length (opts : List (List Char)) (k : Nat) :
    (odometerAt opts k).length = opts.length := by
  induction opts generalizing k with
  | nil => rfl
  | cons os rest ih => simp [odometerAt, ih]

lemma listProd_eq_range_map (opts : List (List Char)) :
    listProd opts =
      (List.range ((opts.map List.length).prod)).map (odometerAt opts) := by
  induction opts with
  | nil => simp [listProd, odometerAt]
  | cons os rest ih =>
    simp only [List.map_cons, List.prod_cons]
    rw [listProd, ih, flatMap_eq_range os _ ' ', range_mul_flatMap, List.map_flatMap]
    apply List.flatMap_congr
    intro q _
    rw [List.map_map, List.map_map]
    apply List.map_congr_left
    intro r hr
    have hrm : r < (rest.map List.length).prod := List.mem_range.1 hr
    have hmpos : 0 < (rest.map List.length).prod := Nat.lt_of_le_of_lt (Nat.zero_le r) hrm
    show os.getD q ' ' :: odometerAt rest r = odometerAt (os :: rest) (q * _ + r)
    simp only [odometerAt]
    rw [Nat.mul_comm q, Nat.mul_add_div hmpos, Nat.div_eq_of_lt hrm, Nat.add_zero,
      Nat.mul_add_mod, Nat.mod_eq_of_lt hrm]


lemma length_listProd (opts : List (List Char)) :
    (listProd opts).length = (opts.map List.length).prod := by
  rw [listProd_eq_range_map, List.length_map, List.length_range]

lemma listProd_mem_length {opts : List (List Char)} {c : List Char}
    (h : c ∈ listProd opts) : c.length = opts.length := by
  rw [listProd_eq_range_map] at h
  rcases List.mem_map.1 h with ⟨k, _, rfl⟩
  exact odometerAt_length opts k

lemma listProd_nodup (opts : List (List Char)) (h : ∀ os ∈ opts, os.Nodup) :
    (listProd opts).Nodup := by
  induction opts with
  | nil => simp [listProd]
  | cons os rest ih =>
    have hr : (listProd rest).Nodup :=
      ih (fun o ho => h o (List.mem_cons_of_mem _ ho))
    have hos : os.Nodup := h os (List.mem_cons_self _ _)
    clear h ih
    rw [listProd]
    induction os with
    | nil => simp
    | cons o os' iih =>
      rw [List.flatMap_cons]
      refine List.Nodup.append ?_ (iih (List.Nodup.of_cons hos)) ?_
      · exact hr.map (fun a b hab => by injection hab)
      · intro c hc1 hc2
        rcases List.mem_map.1 hc1 with ⟨c1, _, rfl⟩
        rcases List.mem_flatMap.1 hc2 with ⟨o', ho', hc2'⟩
        rcases List.mem_map.1 hc2' with ⟨c2, _, heq⟩
        have hoo : o = o' := by injection heq.symm
        exact (List.nodup_cons.1 hos).1 (hoo ▸ ho')

lemma per_char_opts_eq (s : String) (subs : List (Char × List Char)) :
    ((s.data.map (fun ch => options_for_char ch subs)).map List.length).prod =
      (s.data.map (fun ch => (options_for_char ch subs).length)).prod := by
  rw [List.map_map]
  rfl

lemma iter_base_variants_eq_range (s : String) (subs : List (Char × List Char)) :
    iter_base_variants s subs =
      (List.range ((s.data.map (fun ch => (options_for_char ch subs).length)).prod)).map
        (fun k => String.mk (odometerAt (s.data.map (fun ch => options_for_char ch subs)) k)) := by
  rw [iter_base_variants, listProd_eq_range_map, per_char_opts_eq, List.map_map]
  rfl

lemma length_iter_base_variants (s : String) (subs : List (Char × List Char)) :
    (iter_base_variants s subs).length =
      (s.data.map (fun ch => (options_for_char ch subs).length)).prod := by
  rw [iter_base_variants_eq_range, List.length_map, List.length_range]

lemma string_mk_injective : Function.Injective String.mk :=
  fun a b hab => by injection hab

lemma iter_base_variants_nodup (s : String) (subs : List (Char × List Char)) :
    (iter_base_variants s subs).Nodup := by
  rw [iter_base_variants]
  refine List.Nodup.map string_mk_injective (listProd_nodup _ ?_)
  intro os hos
  rcases List.mem_map.1 hos with ⟨ch, _, rfl⟩
  exact options_for_char_nodup ch subs

lemma iter_base_variants_mem_length {s : String} {subs : List (Char × List Char)}
    {v : String} (h : v ∈ iter_base_variants s subs) : v.length = s.length := by
  rw [iter_base_variants] at h
  rcases List.mem_map.1 h with ⟨c, hc, rfl⟩
  have := listProd_mem_length hc
  rw [List.length_map] at this
  show c.length = s.data.length
  exact this

lemma base_total_eq_prod (text : String) :
    base_total text =
      (text.data.map (fun ch => (options_for_char ch DEFAULT_SUBS).length)).prod := by
  rw [base_total, List.prod_eq_foldl]

lemma base_total_eq_length (text : String) :
    base_total text = (iter_base_variants text DEFAULT_SUBS).length := by
  rw [base_total_eq_prod, length_iter_base_variants]

lemma default_subs_values_ne_nil : ∀ p ∈ DEFAULT_SUBS, p.2 ≠ [] := by decide

lemma options_for_char_default_ne_nil (ch : Char) :
    options_for_char ch DEFAULT_SUBS ≠ [] := by
  rw [options_for_char]
  split
  · rcases hlook : lookupSubs DEFAULT_SUBS ch.toLower with _ | l
    · exact dedupFirst_ne_nil (by simp)
    · rw [lookupSubs] at hlook
      rcases hfind : DEFAULT_SUBS.find? (fun p => p.1 == ch.toLower) with _ | p
      · rw [hfind] at hlook; exact Option.noConfusion hlook
      · rw [hfind] at hlook
        have hl : p.2 = l := Option.some.inj hlook
        have hp : p ∈ DEFAULT_SUBS := List.mem_of_find?_eq_some hfind
        have := default_subs_values_ne_nil p hp
        exact dedupFirst_ne_nil (hl ▸ this)
  · exact dedupFirst_ne_nil (by simp)

lemma options_for_char_default_pos (ch : Char) :
    0 < (options_for_char ch DEFAULT_SUBS).length :=
  List.length_pos.2 (options_for_char_default_ne_nil ch)

lemma base_total_pos (text : String) : 0 < base_total text := by
  rw [base_total_eq_prod]
  apply List.prod_pos
  intro a ha
  rcases List.mem_map.1 ha with ⟨ch, _, rfl⟩
  exact options_for_char_default_pos ch

/-! ### Digit-suffix lemmas -/

lemma digits_nodup : DIGITS.Nodup := by decide

lemma digits_getD (d : Nat) (hd : d < 10) : DIGITS.getD d ' ' = digitChar d := by
  interval_cases d <;> rfl

lemma replicate_digits_prod (n : Nat) :
    ((List.replicate n DIGITS).map List.length).prod = 10 ^ n := by
  rw [List.map_replicate, List.prod_replicate]
  rfl

lemma padDecChars_length (w n : Nat) : (padDecChars w n).length = w := by
  induction w generalizing n with
  | zero => rfl
  | succ w ih => simp [padDecChars, ih]

lemma padDec_string_length (w n : Nat) : (padDec w n).length = w := by
  rw [padDec, String.length_mk, padDecChars_length]

lemma odometerAt_replicate_digits (w : Nat) :
    ∀ k, k < 10 ^ w → odometerAt (List.replicate w DIGITS) k = padDecChars w k := by
  induction w with
  | zero => intro k _; rfl
  | succ w ih =>
    intro k hk
    rw [List.replicate_succ]
    show DIGITS.getD (k / _) ' ' :: odometerAt (List.replicate w DIGITS) (k % _) =
      padDecChars (w + 1) k
    rw [replicate_digits_prod, padDecChars]
    have hpow : 0 < 10 ^ w := Nat.pos_pow_of_pos w (by decide)
    have hdiv : k / 10 ^ w < 10 := by
      rw [Nat.div_lt_iff_lt_mul hpow]
      calc k < 10 ^ (w + 1) := hk
        _ = 10 * 10 ^ w := by rw [Nat.pow_succ, Nat.mul_comm]
    rw [digits_getD _ hdiv, ih _ (Nat.mod_lt k hpow)]

lemma digit_block_eq (w : Nat) :
    (listProd (List.replicate w DIGITS)).map String.mk =
      (List.range (10 ^ w)).map (padDec w) := by
  rw [listProd_eq_range_map, replicate_digits_prod, List.map_map]
  apply List.map_congr_left
  intro k hk
  show String.mk (odometerAt (List.replicate w DIGITS) k) = padDec w k
  rw [odometerAt_replicate_digits w k (List.mem_range.1 hk), padDec]

lemma digit_block_nodup (w : Nat) : ((List.range (10 ^ w)).map (padDec w)).Nodup := by
  rw [← digit_block_eq]
  refine List.Nodup.map string_mk_injective (listProd_nodup _ ?_)
  intro os hos
  rw [List.eq_of_mem_replicate hos]
  exact digits_nodup

lemma iter_digit_suffixes_eq :
    iter_digit_suffixes =
      (List.range 10).map (padDec 1) ++ (List.range 100).map (padDec 2) ++
        (List.range 1000).map (padDec 3) ++ (List.range 10000).map (padDec 4) := by
  have h4 : List.range 4 = [0, 1, 2, 3] := rfl
  rw [iter_digit_suffixes, h4]
  simp only [List.flatMap_cons, List.flatMap_nil, List.append_nil]
  rw [digit_block_eq 1, digit_block_eq 2, digit_block_eq 3, digit_block_eq 4]
  norm_num [List.append_assoc]

lemma length_iter_digit_suffixes : iter_digit_suffixes.length = 11110 := by
  rw [iter_digit_suffixes_eq]
  simp

lemma padDec_map_mem_length {N w : Nat} {s : String}
    (h : s ∈ (List.range N).map (padDec w)) : s.length = w := by
  rcases List.mem_map.1 h with ⟨n, _, rfl⟩
  exact padDec_string_length w n

lemma digit_block_mem_length {w : Nat} {s : String}
    (h : s ∈ (List.range (10 ^ w)).map (padDec w)) : s.length = w :=
  padDec_map_mem_length h

lemma iter_digit_suffixes_nodup : iter_digit_suffixes.Nodup := by
  rw [iter_digit_suffixes_eq]
  have disj : ∀ w1 w2 : Nat, w1 ≠ w2 →
      List.Disjoint ((List.range (10 ^ w1)).map (padDec w1))
        ((List.range (10 ^ w2)).map (padDec w2)) := by
    intro w1 w2 hne s hs1 hs2
    exact hne ((digit_block_mem_length hs1).symm.trans (digit_block_mem_length hs2))
  have n1 := digit_block_nodup 1
  have n2 := digit_block_nodup 2
  have n3 := digit_block_nodup 3
  have n4 := digit_block_nodup 4
  norm_num at n1 n2 n3 n4
  rw [List.append_assoc, List.append_assoc]
  refine ((n1.append (n2.append ?_ ?_) ?_))
  · exact n3.append n4 (by have := disj 3 4 (by decide); norm_num at this; exact this)
  · intro s hs2 hs34
    rcases List.mem_append.1 hs34 with h3 | h4
    · have := disj 2 3 (by decide); norm_num at this; exact this hs2 h3
    · have := disj 2 4 (by decide); norm_num at this; exact this hs2 h4
  · intro s hs1 hrest
    rcases List.mem_append.1 hrest with h2 | h34
    · have := disj 1 2 (by decide); norm_num at this; exact this hs1 h2
    · rcases List.mem_append.1 h34 with h3 | h4
      · have := disj 1 3 (by decide); norm_num at this; exact this hs1 h3
      · have := disj 1 4 (by decide); norm_num at this; exact this hs1 h4

/-! ### Year-range parsing lemmas -/

lemma parse_year_range_ascending {spec : String} {a b : Int}
    (h : parse_year_range spec = some (a, b)) : a ≤ b := by
  rw [parse_year_range] at h
  rcases hsp : splitOnce spec.data with _ | p <;> rw [hsp] at h
  · exact Option.noConfusion h
  rw [Option.some_bind] at h
  rcases hx : pyInt (stripChars p.1) with _ | va <;> rw [hx] at h
  · exact Option.noConfusion h
  rw [Option.some_bind] at h
  rcases hy : pyInt (stripChars p.2) with _ | vb <;> rw [hy] at h
  · exact Option.noConfusion h
  rw [Option.map_some'] at h
  injection h with h'
  split at h' <;> · injection h' with h1 h2; omega

lemma parse_year_range_minmax {spec : String} {x y : List Char} {va vb : Int}
    (hsp : splitOnce spec.data = some (x, y))
    (hx : pyInt (stripChars x) = some va) (hy : pyInt (stripChars y) = some vb) :
    parse_year_range spec = some (min va vb, max va vb) := by
  rw [parse_year_range, hsp, Option.some_bind]
  show (pyInt (stripChars x)).bind _ = _
  rw [hx, Option.some_bind]
  show (pyInt (stripChars y)).map _ = _
  rw [hy, Option.map_some']
  congr 1
  rcases le_or_lt va vb with h | h
  · rw [if_neg (by omega), min_eq_left h, max_eq_right h]
  · rw [if_pos (by omega), min_eq_right (le_of_lt h), max_eq_left (le_of_lt h)]

lemma parse_year_range_isSome_iff (spec : String) :
    (parse_year_range spec).isSome ↔ splits_two_int_parsable spec := by
  constructor
  · intro h
    rw [parse_year_range] at h
    rcases hsp : splitOnce spec.data with _ | p <;> rw [hsp] at h
    · simp at h
    rw [Option.some_bind] at h
    rcases hx : pyInt (stripChars p.1) with _ | va <;> rw [hx] at h
    · simp at h
    rw [Option.some_bind] at h
    rcases hy : pyInt (stripChars p.2) with _ | vb <;> rw [hy] at h
    · simp at h
    · exact ⟨p, hsp, by rw [hx]; rfl, by rw [hy]; rfl⟩
  · rintro ⟨p, hsp, hx, hy⟩
    rcases Option.isSome_iff_exists.1 hx with ⟨va, hva⟩
    rcases Option.isSome_iff_exists.1 hy with ⟨vb, hvb⟩
    rw [parse_year_range, hsp, Option.some_bind, hva, Option.some_bind, hvb,
      Option.map_some']
    rfl

lemma parse_year_range_empty : parse_year_range "" = none := by decide

lemma parse_year_range_ne_empty {spec : String} {p : Int × Int}
    (h : parse_year_range spec = some p) : spec ≠ "" := by
  intro heq
  rw [heq, parse_year_range_empty] at h
  exact Option.noConfusion h

/-! ### Year-suffix lemmas -/

lemma length_flatMap_const {α β : Type} (l : List α) (f : α → List β) (c : Nat)
    (h : ∀ a ∈ l, (f a).length = c) : (l.flatMap f).length = l.length * c := by
  induction l with
  | nil => simp
  | cons a l ih =>
    rw [List.flatMap_cons, List.length_append, List.length_cons,
      h a (List.mem_cons_self _ _), ih (fun a ha => h a (List.mem_cons_of_mem _ ha))]
    ring

lemma length_intRange (s e : Int) : (intRange s e).length = (e + 1 - s).toNat := by
  rw [intRange, List.length_map, List.length_range]

lemma length_year_items (year2 : Bool) (y : Int) :
    (year_items year2 y).length = if year2 then 2 else 1 := by
  cases year2 <;> rfl

lemma length_year_list (s e : Int) (year2 : Bool) :
    (year_list s e year2).length = (e - s + 1).toNat * (if year2 then 2 else 1) := by
  rw [year_list, length_flatMap_const _ _ (if year2 then 2 else 1)
    (fun y _ => length_year_items year2 y), length_intRange]
  congr 1
  omega

lemma iter_year_suffixes_empty (year2 : Bool) : iter_year_suffixes "" year2 = some [] :=
  rfl

lemma iter_year_suffixes_parsed {spec : String} {a b : Int} (year2 : Bool)
    (h : parse_year_range spec = some (a, b)) :
    iter_year_suffixes spec year2 = some (year_list a b year2) := by
  rw [iter_year_suffixes, if_neg (parse_year_range_ne_empty h), h]
  rfl

lemma year_total_calc_parsed {years : String} {a b : Int} (year2 : Bool)
    (h : parse_year_range years = some (a, b)) :
    year_total_calc years year2 = some ((b - a + 1).toNat * (if year2 then 2 else 1)) := by
  rw [year_total_calc, if_neg (parse_year_range_ne_empty h), h]
  rfl

lemma year_total_eq_length {years : String} {a b : Int} (year2 : Bool)
    (h : parse_year_range years = some (a, b)) :
    year_total_calc years year2 = some (year_list a b year2).length := by
  rw [year_total_calc_parsed year2 h, length_year_list]

/-! ### Composition-engine lemmas -/

lemma iter_variants_no_years (s : String) (subs : List (Char × List Char))
    (append_digits : Bool) (year2 : Bool) :
    iter_variants s subs append_digits "" year2 =
      some ((iter_base_variants s subs).flatMap (fun base =>
        if append_digits then iter_digit_suffixes.map (fun suf => base ++ suf)
        else [base])) := by
  rw [iter_variants, iter_year_suffixes_empty, Option.map_some']
  congr 1
  apply List.flatMap_congr
  intro base _
  cases append_digits <;> simp

lemma iter_variants_parsed {spec : String} {a b : Int}
    (s : String) (subs : List (Char × List Char)) (append_digits : Bool)
    (year2 : Bool) (h : parse_year_range spec = some (a, b)) :
    iter_variants s subs append_digits spec year2 =
      some ((iter_base_variants s subs).flatMap (fun base =>
        (year_list a b year2).map (fun suf => base ++ suf) ++
          (if append_digits then iter_digit_suffixes.map (fun suf => base ++ suf)
           else []))) := by
  have hne : spec ≠ "" := parse_year_range_ne_empty h
  rw [iter_variants, iter_year_suffixes_parsed year2 h, Option.map_some']
  congr 1
  apply List.flatMap_congr
  intro base _
  rw [if_neg, if_pos hne]
  simp [hne]

lemma length_iter_variants_no_years (s : String) (append_digits : Bool)
    (year2 : Bool) :
    (iter_variants s DEFAULT_SUBS append_digits "" year2).map List.length =
      some (base_total s * (if append_digits then 11110 else 1)) := by
  rw [iter_variants_no_years, Option.map_some']
  congr 1
  rw [length_flatMap_const _ _ (if append_digits then 11110 else 1), base_total_eq_length]
  intro base _
  cases append_digits
  · rfl
  · simp [length_iter_digit_suffixes]

lemma length_iter_variants_parsed {spec : String} {a b : Int}
    (s : String) (append_digits : Bool) (year2 : Bool)
    (h : parse_year_range spec = some (a, b)) :
    (iter_variants s DEFAULT_SUBS append_digits spec year2).map List.length =
      some (base_total s *
        ((year_list a b year2).length + (if append_digits then 11110 else 0))) := by
  rw [iter_variants_parsed s DEFAULT_SUBS append_digits year2 h, Option.map_some']
  congr 1
  rw [length_flatMap_const _ _
    ((year_list a b year2).length + (if append_digits then 11110 else 0)),
    base_total_eq_length]
  intro base _
  rw [List.length_append, List.length_map]
  congr 1
  cases append_digits
  · rfl
  · simp [length_iter_digit_suffixes]

/-! ### Sink-writer lemmas -/

lemma sink_loop_zero (stream : List String) :
    ∀ emitted, sink_loop 0 stream emitted = stream := by
  induction stream with
  | nil => intro emitted; rfl
  | cons v rest ih =>
    intro emitted
    rw [sink_loop]
    simp [ih]

lemma sink_emit_zero (stream : List String) : sink_emit stream 0 = stream :=
  sink_loop_zero stream 0

lemma sink_loop_take {limit : Nat} (hl : limit ≠ 0) :
    ∀ (stream : List String) (emitted : Nat), emitted < limit →
      sink_loop limit stream emitted = stream.take (limit - emitted) := by
  intro stream
  induction stream with
  | nil => intro emitted _; simp [sink_loop]
  | cons v rest ih =>
    intro emitted he
    rw [sink_loop]
    by_cases hge : emitted + 1 ≥ limit
    · have h1 : limit - emitted = 1 := by omega
      rw [if_pos (by simp [hl, hge]), h1]
      rfl
    · have h2 : limit - emitted = (limit - (emitted + 1)) + 1 := by omega
      rw [if_neg (by simp [hge]), ih (emitted + 1) (by omega), h2, List.take_succ_cons]

lemma sink_emit_limit {limit : Nat} (hl : limit ≠ 0) (stream : List String) :
    sink_emit stream limit = stream.take limit := by
  rw [sink_emit, sink_loop_take hl stream 0 (Nat.pos_of_ne_zero hl), Nat.sub_zero]

/-! ### Total-estimator lemmas -/

lemma computed_total_no_years (text : String) (append_digits : Bool) (year2 : Bool) :
    computed_total text append_digits "" year2 =
      some (base_total text * (if append_digits then 11110 else 1)) := by
  rw [computed_total, year_total_calc, if_pos rfl, Option.map_some']
  rw [digit_total, Nat.mul_one]

lemma computed_total_parsed {years : String} {a b : Int}
    (text : String) (append_digits : Bool) (year2 : Bool)
    (h : parse_year_range years = some (a, b)) :
    computed_total text append_digits years year2 =
      some (base_total text * (year_list a b year2).length *
        (if append_digits then 11110 else 1)) := by
  rw [computed_total, year_total_eq_length year2 h, Option.map_some', digit_total]

/-! ### Claim theorems -/

/-- C4: for every base string and substitution table, the Base Variant
Enumerator yields exactly the product of the per-position OptionSet sizes,
all yielded strings are distinct and have length equal to the input length,
they appear in nested-loop (mixed-radix odometer) order with the last
position varying fastest, and re-enumerating reproduces the same sequence. -/
theorem base_variant_enumerator_spec (s : String) (subs : List (Char × List Char)) :
    (iter_base_variants s subs).length =
        (s.data.map (fun ch => (options_for_char ch subs).length)).prod ∧
      (iter_base_variants s subs).Nodup ∧
      (∀ v ∈ iter_base_variants s subs, v.length = s.length) ∧
      iter_base_variants s subs =
        (List.range ((s.data.map (fun ch => (options_for_char ch subs).length)).prod)).map
          (fun k => String.mk
            (odometerAt (s.data.map (fun ch => options_for_char ch subs)) k)) ∧
      (∀ run1 run2 : List String, run1 = iter_base_variants s subs →
        run2 = iter_base_variants s subs → run1 = run2) :=
  ⟨length_iter_base_variants s subs, iter_base_variants_nodup s subs,
   fun _ hv => iter_base_variants_mem_length hv,
   iter_base_variants_eq_range s subs,
   fun _ _ h1 h2 => h1.trans h2.symm⟩

/-- Witness for C4 at the concrete input `"b"`: the member `"B"` of the
enumeration has the input's length. -/
theorem base_variant_enumerator_spec_witness :
    ("B" : String).length = ("b" : String).length :=
  (base_variant_enumerator_spec "b" DEFAULT_SUBS).2.2.1 "B" (by decide)

/-- C10: the empty base string yields exactly the empty string, its base
total is 1 (the empty product), and the stream is nonempty (hence finite and
nonempty, being a list) for every base string under the default table. -/
theorem empty_base_enumeration :
    (∀ subs : List (Char × List Char), iter_base_variants "" subs = [""]) ∧
      base_total "" = 1 ∧
      (∀ s : String, 0 < (iter_base_variants s DEFAULT_SUBS).length) :=
  ⟨fun _ => rfl, rfl,
   fun s => base_total_eq_length s ▸ base_total_pos s⟩

/-- C7: the Digit Suffix Enumerator yields exactly the 11,110 digit strings
of lengths 1 to 4, block by block in counting order with leading zeros, with
no repeats; the first item is `"0"` and the length-2 items are exactly
`"00"`..`"99"` in order. -/
theorem digit_suffix_enumerator_spec :
    iter_digit_suffixes =
        (List.range 10).map (padDec 1) ++ (List.range 100).map (padDec 2) ++
          (List.range 1000).map (padDec 3) ++ (List.range 10000).map (padDec 4) ∧
      iter_digit_suffixes.length = 11110 ∧
      iter_digit_suffixes.Nodup ∧
      iter_digit_suffixes.head? = some "0" ∧
      iter_digit_suffixes.filter (fun v => v.length == 2) =
        (List.range 100).map (padDec 2) := by
  refine ⟨iter_digit_suffixes_eq, length_iter_digit_suffixes,
    iter_digit_suffixes_nodup, ?_, ?_⟩
  · rw [iter_digit_suffixes_eq]
    have h1 : (List.range 10).map (padDec 1) =
        ["0", "1", "2", "3", "4", "5", "6", "7", "8", "9"] := by decide
    rw [h1]
    rfl
  · rw [iter_digit_suffixes_eq, List.filter_append, List.filter_append,
      List.filter_append]
    have h1 : ((List.range 10).map (padDec 1)).filter (fun v => v.length == 2) = [] :=
      List.filter_eq_nil_iff.2 (fun s hs => by simp [padDec_map_mem_length hs])
    have h3 : ((List.range 1000).map (padDec 3)).filter (fun v => v.length == 2) = [] :=
      List.filter_eq_nil_iff.2 (fun s hs => by simp [padDec_map_mem_length hs])
    have h4 : ((List.range 10000).map (padDec 4)).filter (fun v => v.length == 2) = [] :=
      List.filter_eq_nil_iff.2 (fun s hs => by simp [padDec_map_mem_length hs])
    have h2 : ((List.range 100).map (padDec 2)).filter (fun v => v.length == 2) =
        (List.range 100).map (padDec 2) :=
      List.filter_eq_self.2 (fun s hs => by simp [padDec_map_mem_length hs])
    rw [h1, h2, h3, h4, List.nil_append, List.append_nil, List.append_nil]

/-- C5: for every parsed (hence ascending) year range with 2-digit mode on,
the Year Suffix Enumerator emits, per year in ascending order, the decimal
string of the year immediately followed by the zero-padded 2-digit form, for
`(end - start + 1) * 2` items in total; for `"2020-2021"` the sequence is
exactly `["2020", "20", "2021", "21"]`. -/
theorem year_suffix_enumerator_spec :
    (∀ (spec : String) (a b : Int), parse_year_range spec = some (a, b) →
        a ≤ b ∧
          iter_year_suffixes spec true =
            some ((intRange a b).flatMap (fun y =>
              [pyStr y, pad2 (y.emod 100).toNat])) ∧
          (year_list a b true).length = (b - a + 1).toNat * 2) ∧
      iter_year_suffixes "2020-2021" true = some ["2020", "20", "2021", "21"] := by
  refine ⟨fun spec a b h => ⟨parse_year_range_ascending h, ?_, ?_⟩, by decide⟩
  · rw [iter_year_suffixes_parsed true h]
    rfl
  · rw [length_year_list]
    rfl

/-- Witness for C5 at the concrete range `"2020-2021"`. -/
theorem year_suffix_enumerator_spec_witness :
    (2020 : Int) ≤ 2021 ∧
      iter_year_suffixes "2020-2021" true =
        some ((intRange 2020 2021).flatMap (fun y =>
          [pyStr y, pad2 (y.emod 100).toNat])) ∧
      (year_list 2020 2021 true).length = ((2021 : Int) - 2020 + 1).toNat * 2 :=
  year_suffix_enumerator_spec.1 "2020-2021" 2020 2021 (by decide)

/-- C6: year-range parsing fails exactly when the specification does not
split, on the separator, into two integer-parsable parts; when it does split,
parsing succeeds and returns the two parsed integers (as an ordered pair). -/
theorem year_range_parse_iff (spec : String) :
    (parse_year_range spec = none ↔ ¬ splits_two_int_parsable spec) ∧
      (∀ (x y : List Char) (va vb : Int), splitOnce spec.data = some (x, y) →
        pyInt (stripChars x) = some va → pyInt (stripChars y) = some vb →
          parse_year_range spec = some (va, vb) ∨
            parse_year_range spec = some (vb, va)) := by
  constructor
  · rw [← Option.not_isSome_iff_eq_none, parse_year_range_isSome_iff]
  · intro x y va vb hsp hx hy
    have hmm := parse_year_range_minmax hsp hx hy
    rcases le_total va vb with h | h
    · left; rw [hmm, min_eq_left h, max_eq_right h]
    · right; rw [hmm, min_eq_right h, max_eq_left h]

/-- Witness for C6 at the concrete specification `"2019-2020"`. -/
theorem year_range_parse_iff_witness :
    parse_year_range "2019-2020" = some (2019, 2020) ∨
      parse_year_range "2019-2020" = some (2020, 2019) :=
  (year_range_parse_iff "2019-2020").2
    ['2', '0', '1', '9'] ['2', '0', '2', '0'] 2019 2020
    (by decide) (by decide) (by decide)

/-- C9: parsing normalizes the two parsed integers to `(min, max)`, so the
returned range is ascending, and the year-suffix sequence for the reversed
specification `"2020-2019"` is identical to the one for `"2019-2020"`. -/
theorem year_range_normalization :
    (∀ (spec : String) (x y : List Char) (va vb : Int),
        splitOnce spec.data = some (x, y) → pyInt (stripChars x) = some va →
          pyInt (stripChars y) = some vb →
            parse_year_range spec = some (min va vb, max va vb)) ∧
      (∀ (spec : String) (a b : Int), parse_year_range spec = some (a, b) → a ≤ b) ∧
      (∀ year2 : Bool, iter_year_suffixes "2020-2019" year2 =
        iter_year_suffixes "2019-2020" year2) := by
  refine ⟨fun _ _ _ _ _ => parse_year_range_minmax,
    fun _ _ _ => parse_year_range_ascending, ?_⟩
  intro year2
  cases year2 <;> decide

/-- Witness for C9 at the concrete specification `"2020-2019"`. -/
theorem year_range_normalization_witness :
    parse_year_range "2020-2019" = some (min 2020 2019, max 2020 2019) :=
  year_range_normalization.1 "2020-2019"
    ['2', '0', '2', '0'] ['2', '0', '1', '9'] 2020 2019
    (by decide) (by decide) (by decide)

/-- C2: when both digit and year suffixing are requested, the Composition
Engine emits, per base variant, the year-suffixed run followed by the
digit-suffixed run — two consecutive runs totalling `yearTotal + digitTotal`
items per base variant, never the cross product `yearTotal * digitTotal`. -/
theorem both_suffix_families_two_runs (s : String) (subs : List (Char × List Char))
    (year2 : Bool) (spec : String) (a b : Int)
    (h : parse_year_range spec = some (a, b)) :
    iter_variants s subs true spec year2 =
        some ((iter_base_variants s subs).flatMap (fun base =>
          (year_list a b year2).map (fun suf => base ++ suf) ++
            iter_digit_suffixes.map (fun suf => base ++ suf))) ∧
      (∀ base : String,
        ((year_list a b year2).map (fun suf => base ++ suf) ++
            iter_digit_suffixes.map (fun suf => base ++ suf)).length =
          (year_list a b year2).length + 11110) ∧
      (year_list a b year2).length + 11110 ≠
        (year_list a b year2).length * 11110 := by
  refine ⟨?_, ?_, ?_⟩
  · rw [iter_variants_parsed s subs true year2 h]
    simp
  · intro base
    rw [List.length_append, List.length_map, List.length_map,
      length_iter_digit_suffixes]
  · have hab := parse_year_range_ascending h
    have hyl : 1 ≤ (year_list a b year2).length := by
      rw [length_year_list]
      have h1 : 1 ≤ (b - a + 1).toNat := by omega
      cases year2 <;> simp <;> omega
    omega

/-- Witness for C2 at the concrete configuration (empty base, range
`"2020-2020"`, no 2-digit years). -/
theorem both_suffix_families_two_runs_witness :
    (year_list 2020 2020 false).length + 11110 ≠
      (year_list 2020 2020 false).length * 11110 :=
  (both_suffix_families_two_runs "" DEFAULT_SUBS false "2020-2020" 2020 2020
    (by decide)).2.2

/-- C8: with a nonzero emission limit `N` and a composed stream longer than
`N`, the Sink Writer emits exactly the first `N` items and consumes only `N`
items of the stream (it does not exhaust it); limit `0` (the absent-limit
default) emits the whole stream. -/
theorem sink_writer_limit :
    (∀ (stream : List String) (N : Nat), 1 ≤ N → N < stream.length →
        sink_emit stream N = stream.take N ∧
          (sink_emit stream N).length = N ∧
          sink_pulled stream N < stream.length) ∧
      (∀ stream : List String, sink_emit stream 0 = stream) := by
  constructor
  · intro stream N h1 h2
    have he : sink_emit stream N = stream.take N :=
      sink_emit_limit (by omega) stream
    refine ⟨he, ?_, ?_⟩
    · rw [he, List.length_take]
      omega
    · rw [sink_pulled, he, List.length_take]
      omega
  · exact sink_emit_zero

/-- Witness for C8 with `limit = 5` on a 6-item stream. -/
theorem sink_writer_limit_witness :
    (sink_emit ["a", "b", "c", "d", "e", "f"] 5).length = 5 :=
  (sink_writer_limit.1 ["a", "b", "c", "d", "e", "f"] 5
    (by decide) (by decide)).2.1

/-- C1 (amended): the Total Estimator equals the Composition Engine's exact
emission count for every configuration with at most one suffix family
enabled; when both families are enabled the estimator computes
`base * year * digit`, the engine emits `base * (year + digit)`, and these
two totals always differ. -/
theorem total_estimator_consistency :
    (∀ (text : String) (append_digits : Bool) (years : String) (year2 : Bool),
        ¬(append_digits = true ∧ years ≠ "") →
          ∀ t : Nat, computed_total text append_digits years year2 = some t →
            (iter_variants text DEFAULT_SUBS append_digits years year2).map
              List.length = some t) ∧
      (∀ (text years : String) (year2 : Bool) (a b : Int),
        parse_year_range years = some (a, b) →
          computed_total text true years year2 =
              some (base_total text * (year_list a b year2).length * 11110) ∧
            (iter_variants text DEFAULT_SUBS true years year2).map List.length =
              some (base_total text * ((year_list a b year2).length + 11110)) ∧
            base_total text * (year_list a b year2).length * 11110 ≠
              base_total text * ((year_list a b year2).length + 11110)) := by
  constructor
  · intro text append_digits years year2 hnot t ht
    by_cases hy : years = ""
    · subst hy
      rw [computed_total_no_years] at ht
      rw [length_iter_variants_no_years, ← Option.some.inj ht]
    · have hd : append_digits = false := by
        cases append_digits
        · rfl
        · exact absurd ⟨rfl, hy⟩ hnot
      subst hd
      have hsome : (parse_year_range years).isSome := by
        rcases hp : parse_year_range years with _ | p
        · rw [computed_total, year_total_calc, if_neg hy, hp] at ht
          exact Option.noConfusion ht
        · rfl
      rcases Option.isSome_iff_exists.1 hsome with ⟨⟨a, b⟩, hp⟩
      rw [computed_total_parsed text false year2 hp] at ht
      rw [length_iter_variants_parsed text false year2 hp, ← Option.some.inj ht]
      simp
  · intro text years year2 a b hp
    refine ⟨?_, length_iter_variants_parsed text true year2 hp, ?_⟩
    · rw [computed_total_parsed text true year2 hp]
      simp
    · have hb : 1 ≤ base_total text := base_total_pos text
      have hab := parse_year_range_ascending hp
      have hyl : 1 ≤ (year_list a b year2).length := by
        rw [length_year_list]
        have h1 : 1 ≤ (b - a + 1).toNat := by omega
        cases year2 <;> simp <;> omega
      rw [Nat.mul_assoc]
      intro heq
      have hinner : (year_list a b year2).length * 11110 =
          (year_list a b year2).length + 11110 :=
        Nat.eq_of_mul_eq_mul_left (by omega) heq
      omega

/-- Witness for C1 (amended) at base `"a"`, digits only. -/
theorem total_estimator_consistency_witness :
    (iter_variants "a" DEFAULT_SUBS true "" false).map List.length = some 44440 :=
  total_estimator_consistency.1 "a" true "" false (by simp) 44440 (by decide)

/-- C1 counterexample: with both suffix families enabled (empty base, years
`"2020-2020"`, digits on) the estimator reports 11110 but the Composition
Engine emits 11111 items. -/
theorem total_estimator_counterexample :
    computed_total "" true "2020-2020" false = some 11110 ∧
      (iter_variants "" DEFAULT_SUBS true "2020-2020" false).map List.length =
        some 11111 ∧
      (11110 : Nat) ≠ 11111 := by
  have hp : parse_year_range "2020-2020" = some (2020, 2020) := by decide
  have hyl : (year_list 2020 2020 false).length = 1 := by
    rw [length_year_list]
    rfl
  refine ⟨?_, ?_, by decide⟩
  · rw [computed_total_parsed "" true false hp, hyl]
    rfl
  · rw [length_iter_variants_parsed "" true false hp, hyl]
    rfl

/-- C3: at the failing input `--years foo` (any non-splitting specification)
the model of `main` ends in an uncaught `ValueError` escaping `main` — the
FormatError is not caught at the boundary, contradicting the claimed clean
user-facing error handling. -/
theorem years_parse_error_uncaught :
    parse_year_range "foo" = none ∧
      main_run "password" false "foo" false 0 false =
        MainOutcome.uncaughtError YEARS_ERROR_MSG := by
  constructor
  · decide
  · rfl

end WordGen
